import Mathlib

/-!
Shallow embedding of the operator-translation layer of jaxonnxruntime's
`onnx_ops/mod.py` and `onnx_ops/slice.py`: tensors are shapes with row-major
data, the jax/numpy primitives used by the two translation functions are
modelled over the integers, and Python runtime failures (IndexError,
UnboundLocalError, AssertionError, ...) are modelled with `Except`.
-/

/-- An n-dimensional integer tensor: a shape together with the row-major
flattened data. -/
structure Tensor where
  shape : List Nat
  data : List Int
deriving Repr, DecidableEq

/-- Row-major flattening of a multi-index against a shape. -/
def flattenIdx (shape idx : List Nat) : Nat :=
  (shape.zip idx).foldl (fun acc di => acc * di.1 + di.2) 0

/-- All multi-indices of a shape, enumerated in row-major order. -/
def allIdx : List Nat → List (List Nat)
  | [] => [[]]
  | d :: ds => ((List.range d).map (fun i => (allIdx ds).map (i :: ·))).flatten

/-- Element of a tensor at a multi-index (0 when out of range). -/
def Tensor.get (t : Tensor) (idx : List Nat) : Int :=
  t.data.getD (flattenIdx t.shape idx) 0

/-- Numpy pairwise dimension-broadcast rule: equal dims broadcast to
themselves, a dim of 1 broadcasts to the other dim, everything else fails. -/
def broadcastDim (a b : Nat) : Option Nat :=
  if a = b then some a else if a = 1 then some b else if b = 1 then some a else none

/-- Numpy shape broadcast: right-align the two shapes, pad the shorter one
with leading 1s and combine dimension-wise. -/
def broadcastShapes (s1 s2 : List Nat) : Option (List Nat) :=
  let n := max s1.length s2.length
  let p1 := List.replicate (n - s1.length) 1 ++ s1
  let p2 := List.replicate (n - s2.length) 1 ++ s2
  (p1.zip p2).mapM (fun ab => broadcastDim ab.1 ab.2)

/-- Project an output multi-index back onto an input of shape `s`: drop the
leading broadcast dimensions, and clamp indices of size-1 dimensions to 0. -/
def projIdx (s : List Nat) (idx : List Nat) : List Nat :=
  (s.zip (idx.drop (idx.length - s.length))).map
    (fun di => if di.1 = 1 then 0 else di.2)

/-- Model of `jnp.mod` on integers: the floored modulo, whose sign follows
the divisor (numpy documents `mod` as `a - floor_divide(a, b)*b`, i.e.
Python's `%`). -/
def jnp_mod (a b : Int) : Int := Int.fmod a b

/-- Model of `jnp.fmod` on integers: the C-style truncated remainder, whose
sign follows the dividend. -/
def jnp_fmod (a b : Int) : Int := Int.tmod a b

/-- Elementwise binary operation with numpy broadcasting; non-broadcastable
shapes surface the host error. -/
def broadcastBinop (f : Int → Int → Int) (a b : Tensor) : Except String Tensor :=
  match broadcastShapes a.shape b.shape with
  | none => .error "operands could not be broadcast together"
  | some s =>
      .ok ⟨s, (allIdx s).map
        (fun idx => f (a.get (projIdx a.shape idx)) (b.get (projIdx b.shape idx)))⟩

/-- Model of `onnx_mod` from `onnx_ops/mod.py`: two operands, a static
`fmod` flag; `fmod == 0` dispatches to `jnp.mod`, anything else to
`jnp.fmod`. -/
def onnx_mod (fmod : Int) (a b : Tensor) : Except String Tensor :=
  if fmod = 0 then broadcastBinop jnp_mod a b
  else broadcastBinop jnp_fmod a b

/-- Python runtime failures surfaced by `onnx_slice`. -/
inductive PyErr where
  | indexError
  | unboundLocalError
  | assertionError
  | typeError
  | valueError
deriving Repr, DecidableEq

deriving instance DecidableEq for Except

/-- Model of the jax scatter `base.at[axes].set(vals)` on an integer vector:
negative indices wrap around the length, out-of-bounds updates are dropped
(the default scatter mode), later duplicate updates win; mismatched index
and value counts raise in the host. -/
def scatterSet (base : List Int) (axes vals : List Int) :
    Except PyErr (List Int) :=
  if axes.length ≠ vals.length then .error .typeError
  else .ok ((axes.zip vals).foldl
    (fun acc av =>
      let i : Int := if av.1 < 0 then av.1 + (base.length : Int) else av.1
      if 0 ≤ i ∧ i < (base.length : Int) then acc.set i.toNat av.2 else acc)
    base)

/-- Model of `jax.lax.slice`: a strided sub-array given per-axis start,
limit and stride vectors of full rank. `lax.slice` requires
`0 <= start <= limit <= dim` and `stride >= 1` on every axis and raises
otherwise; the output dimension on an axis is the ceiling of
`(limit - start) / stride`. -/
def lax_slice (x : Tensor) (starts limits strides : List Int) :
    Except PyErr Tensor :=
  if starts.length ≠ x.shape.length ∨ limits.length ≠ x.shape.length ∨
      strides.length ≠ x.shape.length then .error .typeError
  else if ¬ ((((starts.zip limits).zip strides).zip x.shape).all
      (fun q => 0 ≤ q.1.1.1 ∧ q.1.1.1 ≤ q.1.1.2 ∧ q.1.1.2 ≤ (q.2 : Int) ∧
        1 ≤ q.1.2)) then .error .valueError
  else
    let outShape := ((starts.zip limits).zip strides).map
      (fun q => ((q.1.2 - q.1.1).toNat + q.2.toNat - 1) / q.2.toNat)
    .ok ⟨outShape, (allIdx outShape).map
      (fun idx => x.get (((starts.zip strides).zip idx).map
        (fun q => (q.1.1 + q.1.2 * (q.2 : Int)).toNat)))⟩

/-- Model of `onnx_slice` from `onnx_ops/slice.py`. The Python function is
variadic over `input_args`; here `x`, `starts`, `ends` are the three
required positional inputs (calling with fewer than three already fails at
the tuple unpacking `x, starts, ends = input_args[:3]`, outside the
function body proper), and `axes`/`steps` are `none` exactly when the 4th
resp. 5th positional input is absent. Control flow mirrors the source:
the `assert len(starts) == len(ends)` first; the `if len(input_args) < 3`
branch is unreachable (three inputs are already bound), so control always
reaches the `else` branch whose `axes = input_args[3]` raises `IndexError`
when only three inputs were given; and when no 5th input is present only
`steps = None` is assigned, so the final
`jax.lax.slice(x, lax_start, lax_end, lax_steps)` reads the never-assigned
local `lax_steps` and raises `UnboundLocalError`. -/
def onnx_slice (x : Tensor) (starts ends : List Int)
    (axes steps : Option (List Int)) : Except PyErr Tensor :=
  if starts.length ≠ ends.length then .error .assertionError
  else
    match axes with
    | none => .error .indexError
    | some axesL => do
        let lax_start ← scatterSet (List.replicate x.shape.length 0) axesL starts
        let lax_end ← scatterSet (x.shape.map Int.ofNat) axesL ends
        match steps with
        | some stepsL => do
            let lax_steps ← scatterSet (List.replicate x.shape.length 1) axesL stepsL
            lax_slice x lax_start lax_end lax_steps
        | none => .error .unboundLocalError

/-- A graph node as the handlers see it: the raw attributes declared in the
model and the derived dictionary that preparation fills in. Attribute
values are integers, which is all Mod and Slice need. -/
structure OnnxNode where
  op_type : String
  attrs : List (String × Int)
  attrs_dict : List (String × Int)
deriving Repr, DecidableEq

/-- Dictionary lookup in an association list. -/
def lookupAttr (d : List (String × Int)) (k : String) : Option Int :=
  d.lookup k

/-- Python dict assignment `d[k] = v`: replace the binding of `k` in place
when present, otherwise append a new one. -/
def setAttr : List (String × Int) → String → Int → List (String × Int)
  | [], k, v => [(k, v)]
  | p :: rest, k, v =>
      if p.1 = k then (k, v) :: rest else p :: setAttr rest k v

/-- Modelled from the spec: `onnx_ops_utils.update_node_attrs_dict` (the
`onnx_ops_utils` module is not part of the excerpt). Per the spec,
preparation populates `attrs_dict` with the "resolved, typed, defaulted
parameters actually needed by the translation function": for each static
parameter name the given implementation accepts, the raw attribute value
declared on the node, when present, is copied into `attrs_dict`. It reads
only the node's raw attributes and the implementation's static parameter
names. -/
def update_node_attrs_dict (node : OnnxNode) (implStatics : List String) :
    OnnxNode :=
  let d := implStatics.foldl
    (fun d k => match lookupAttr node.attrs k with
      | some v => setAttr d k v
      | none => d)
    node.attrs_dict
  { node with attrs_dict := d }

/-- The static parameter names of `onnx_mod` (its single static argument is
the `fmod` flag). -/
def Mod_statics : List String := ["fmod"]

/-- The static parameter names of `onnx_slice` (it has none). -/
def Slice_statics : List String := []

/-- Model of `Mod._prepare`: run `update_node_attrs_dict`, then set
`attrs_dict["fmod"]` to `node.attrs.get("fmod", 0)`. The `inputs` argument
of the Python method is never read. -/
def Mod_prepare (node : OnnxNode) : OnnxNode :=
  let node := update_node_attrs_dict node Mod_statics
  let d := setAttr node.attrs_dict "fmod" ((lookupAttr node.attrs "fmod").getD 0)
  { node with attrs_dict := d }

/-- Model of `Slice._prepare`: only `update_node_attrs_dict`; `inputs` is
never read. -/
def Slice_prepare (node : OnnxNode) : OnnxNode :=
  update_node_attrs_dict node Slice_statics

/-- The type of the Mod translation function in this embedding. -/
abbrev ModFn := Int → Tensor → Tensor → Except String Tensor

/-- The type of the Slice translation function in this embedding. -/
abbrev SliceFn :=
  Tensor → List Int → List Int → Option (List Int) → Option (List Int) →
    Except PyErr Tensor

/-- Model of `Mod.version_10`: prepare the node, return `onnx_mod`. -/
def Mod_version_10 (node : OnnxNode) (inputs : List Tensor) :
    OnnxNode × ModFn := (Mod_prepare node, onnx_mod)

/-- Model of `Mod.version_13`: prepare the node, return `onnx_mod`. -/
def Mod_version_13 (node : OnnxNode) (inputs : List Tensor) :
    OnnxNode × ModFn := (Mod_prepare node, onnx_mod)

/-- Model of `Slice.version_1`: prepare the node, return `onnx_slice`. -/
def Slice_version_1 (node : OnnxNode) (inputs : List Tensor) :
    OnnxNode × SliceFn := (Slice_prepare node, onnx_slice)

/-- Model of `Slice.version_10`: prepare the node, return `onnx_slice`. -/
def Slice_version_10 (node : OnnxNode) (inputs : List Tensor) :
    OnnxNode × SliceFn := (Slice_prepare node, onnx_slice)

/-- Model of `Slice.version_11`: prepare the node, return `onnx_slice`. -/
def Slice_version_11 (node : OnnxNode) (inputs : List Tensor) :
    OnnxNode × SliceFn := (Slice_prepare node, onnx_slice)

/-- Model of `Slice.version_13`: prepare the node, return `onnx_slice`. -/
def Slice_version_13 (node : OnnxNode) (inputs : List Tensor) :
    OnnxNode × SliceFn := (Slice_prepare node, onnx_slice)

/-! Helper lemmas. -/

theorem lookup_setAttr (d : List (String × Int)) (k : String) (v : Int) :
    lookupAttr (setAttr d k v) k = some v := by
  induction d with
  | nil => simp [setAttr, lookupAttr, List.lookup]
  | cons p rest ih =>
      by_cases h : p.1 = k
      · simp [setAttr, h, lookupAttr, List.lookup]
      · have hk : (k == p.1) = false := beq_eq_false_iff_ne.mpr (Ne.symm h)
        simp only [setAttr, if_neg h, lookupAttr, List.lookup, hk]
        exact ih

theorem setAttr_setAttr (d : List (String × Int)) (k : String) (v w : Int) :
    setAttr (setAttr d k v) k w = setAttr d k w := by
  induction d with
  | nil => simp [setAttr]
  | cons p rest ih =>
      by_cases h : p.1 = k
      · simp [setAttr, h]
      · simp [setAttr, if_neg h, ih]

theorem fmod_nonpos_of_neg (a : Int) {b : Int} (hb : b < 0) :
    Int.fmod a b ≤ 0 := by
  obtain ⟨n, rfl⟩ := Int.eq_negSucc_of_lt_zero hb
  match a with
  | Int.ofNat 0 => simp
  | Int.ofNat (m + 1) =>
      show Int.subNatNat (m % (n + 1)) n ≤ 0
      rw [Int.subNatNat_eq_coe]
      have hlt : m % (n + 1) < n + 1 := Nat.mod_lt m (Nat.succ_pos n)
      omega
  | Int.negSucc m =>
      show -(Int.ofNat ((m + 1) % (n + 1))) ≤ 0
      simp only [Int.ofNat_eq_coe]
      omega

theorem tmod_nonpos_of_nonpos {a : Int} (b : Int) (ha : a ≤ 0) :
    Int.tmod a b ≤ 0 := by
  match a with
  | Int.ofNat 0 => simp
  | Int.ofNat (m + 1) =>
      simp only [Int.ofNat_eq_coe] at ha
      omega
  | Int.negSucc m =>
      match b with
      | Int.ofNat n =>
          show -(Int.ofNat ((m + 1) % n)) ≤ 0
          simp only [Int.ofNat_eq_coe]
          omega
      | Int.negSucc n =>
          show -(Int.ofNat ((m + 1) % (n + 1))) ≤ 0
          simp only [Int.ofNat_eq_coe]
          omega

/-! Claims. -/

/-- Claim C1: for integer operands `a`, `b` with `b ≠ 0`, the Mod
translation function with static flag `fmod = 0` returns the floor-style
modulo `a - b * floor(a / b)` and its result is zero or has the sign of
`b`; with `fmod = 1` it returns the truncating remainder
`a - b * trunc(a / b)` and its result is zero or has the sign of `a`;
in particular `Mod([5, -5], [3, 3], fmod=0) = [2, 1]` and
`Mod([5, -5], [3, 3], fmod=1) = [2, -2]`. -/
theorem Mod_floor_trunc_semantics :
    (∀ a b : Int, b ≠ 0 →
      onnx_mod 0 ⟨[], [a]⟩ ⟨[], [b]⟩
          = .ok ⟨[], [a - b * Int.fdiv a b]⟩ ∧
      onnx_mod 1 ⟨[], [a]⟩ ⟨[], [b]⟩
          = .ok ⟨[], [a - b * Int.tdiv a b]⟩ ∧
      (0 < b → 0 ≤ jnp_mod a b) ∧ (b < 0 → jnp_mod a b ≤ 0) ∧
      (0 ≤ a → 0 ≤ jnp_fmod a b) ∧ (a ≤ 0 → jnp_fmod a b ≤ 0)) ∧
    onnx_mod 0 ⟨[2], [5, -5]⟩ ⟨[2], [3, 3]⟩ = .ok ⟨[2], [2, 1]⟩ ∧
    onnx_mod 1 ⟨[2], [5, -5]⟩ ⟨[2], [3, 3]⟩ = .ok ⟨[2], [2, -2]⟩ := by
  refine ⟨fun a b hb => ⟨?_, ?_, fun h => ?_, fun h => ?_, fun h => ?_,
    fun h => ?_⟩, by rfl, by rfl⟩
  · show Except.ok (⟨[], [Int.fmod a b]⟩ : Tensor) = _
    rw [Int.fmod_def]
  · show Except.ok (⟨[], [Int.tmod a b]⟩ : Tensor) = _
    rw [Int.tmod_def]
  · exact Int.fmod_nonneg' a h
  · exact fmod_nonpos_of_neg a h
  · exact Int.tmod_nonneg b h
  · exact tmod_nonpos_of_nonpos b h

/-- Witness for Claim C1 at `a = 7`, `b = -3`. -/
theorem Mod_floor_trunc_semantics_witness :
    (-3 : Int) ≠ 0 ∧
    onnx_mod 0 ⟨[], [7]⟩ ⟨[], [-3]⟩
        = .ok ⟨[], [7 - (-3) * Int.fdiv 7 (-3)]⟩ :=
  ⟨by decide, (Mod_floor_trunc_semantics.1 7 (-3) (by decide)).1⟩

/-- Claim C2 is refuted by the code: a Slice call with exactly three inputs
never reaches the slicing logic. The guard `if len(input_args) < 3` can
never hold once `x, starts, ends = input_args[:3]` has succeeded, so
control falls into the `else` branch and `axes = input_args[3]` raises
`IndexError`. The second conjunct shows the intended behaviour (all axes
in order, unit steps) really would return `x` unchanged. -/
theorem Slice_three_inputs_indexError :
    onnx_slice ⟨[4, 5], (List.range 20).map Int.ofNat⟩ [0, 0] [4, 5]
        none none = .error .indexError ∧
    onnx_slice ⟨[4, 5], (List.range 20).map Int.ofNat⟩ [0, 0] [4, 5]
        (some [0, 1]) (some [1, 1])
        = .ok ⟨[4, 5], (List.range 20).map Int.ofNat⟩ :=
  ⟨by rfl, by decide⟩

/-- Claim C3 is refuted by the code: when the 5th input `steps` is absent,
only `steps = None` is assigned, while the local `lax_steps` that
`jax.lax.slice(x, lax_start, lax_end, lax_steps)` reads is assigned only
inside `if len(input_args) > 4`, so the call raises `UnboundLocalError`
instead of behaving like all-ones steps. The second conjunct shows the
all-ones-steps call it was supposed to equal. -/
theorem Slice_omitted_steps_unboundLocal :
    onnx_slice ⟨[3], [10, 20, 30]⟩ [0] [2] (some [0]) none
        = .error .unboundLocalError ∧
    onnx_slice ⟨[3], [10, 20, 30]⟩ [0] [2] (some [0]) (some [1])
        = .ok ⟨[2], [10, 20]⟩ :=
  ⟨by rfl, by decide⟩

/-- Positions whose index is named by no element of `axes` (after negative
wrap-around against length `n`) are untouched by the scatter fold. -/
theorem scatterFold_untouched (n : Nat) (l : List (Int × Int)) (j : Nat)
    (hj : ∀ av ∈ l,
      (if av.1 < 0 then av.1 + (n : Int) else av.1) ≠ (j : Int)) :
    ∀ acc : List Int,
      (l.foldl (fun acc av =>
        let i : Int := if av.1 < 0 then av.1 + (n : Int) else av.1
        if 0 ≤ i ∧ i < (n : Int) then acc.set i.toNat av.2 else acc)
        acc)[j]? = acc[j]? := by
  induction l with
  | nil => intro acc; rfl
  | cons hd tl ih =>
      intro acc
      have hhd := hj hd (List.mem_cons_self hd tl)
      have htl : ∀ av ∈ tl,
          (if av.1 < 0 then av.1 + (n : Int) else av.1) ≠ (j : Int) :=
        fun av hav => hj av (List.mem_cons_of_mem hd hav)
      rw [List.foldl_cons, ih htl]
      set i : Int := if hd.1 < 0 then hd.1 + (n : Int) else hd.1 with hi
      by_cases hcond : 0 ≤ i ∧ i < (n : Int)
      · simp only [if_pos hcond]
        refine List.getElem?_set_ne ?_
        intro heq
        exact hhd (by omega)
      · simp only [if_neg hcond]

/-- Unnamed positions of the result of `scatterSet` keep the value of the
base (identity) vector. -/
theorem scatterSet_untouched (base axes vals res : List Int)
    (hres : scatterSet base axes vals = .ok res) (j : Nat)
    (hj : ∀ a ∈ axes,
      (if a < 0 then a + (base.length : Int) else a) ≠ (j : Int)) :
    res[j]? = base[j]? := by
  rw [scatterSet] at hres
  by_cases hlen : axes.length ≠ vals.length
  · rw [if_pos hlen] at hres; cases hres
  · rw [if_neg hlen] at hres
    cases hres
    exact scatterFold_untouched base.length (axes.zip vals) j
      (fun av hav => hj av.1 (List.of_mem_zip hav).1) base

/-- Claim C4: the Slice translation builds full-rank identity start/end/step
vectors and overwrites only the positions named by `axes`, so axes not
named stay fully unsliced — this is the `scatterSet_untouched` conjunct,
true of the constructed vectors. But the claim's concrete scenario
`Slice(x=[[1,2,3],[4,5,6]], starts=[1], ends=[3], axes=[1])` passes no
5th input, so the call raises `UnboundLocalError` on `lax_steps` instead
of returning `[[2,3],[5,6]]`; the same call with explicit unit steps does
return `[[2,3],[5,6]]`. -/
theorem Slice_partial_axes :
    (∀ (base axes vals res : List Int),
      scatterSet base axes vals = .ok res → ∀ j : Nat,
        (∀ a ∈ axes,
          (if a < 0 then a + (base.length : Int) else a) ≠ (j : Int)) →
        res[j]? = base[j]?) ∧
    onnx_slice ⟨[2, 3], [1, 2, 3, 4, 5, 6]⟩ [1] [3] (some [1]) none
        = .error .unboundLocalError ∧
    onnx_slice ⟨[2, 3], [1, 2, 3, 4, 5, 6]⟩ [1] [3] (some [1]) (some [1])
        = .ok ⟨[2, 2], [2, 3, 5, 6]⟩ :=
  ⟨fun base axes vals res hres j hj =>
      scatterSet_untouched base axes vals res hres j hj,
    by rfl, by decide⟩

/-- Witness for the universally quantified conjunct of Claim C4: scattering
starts `[1]` at axes `[1]` into the identity start vector `[0, 0]` leaves
position 0 untouched. -/
theorem Slice_partial_axes_witness :
    scatterSet [0, 0] [1] [1] = .ok [0, 1] ∧
    (∀ a ∈ ([1] : List Int),
      (if a < 0 then a + ((2 : Nat) : Int) else a) ≠ ((0 : Nat) : Int)) ∧
    ([0, 1] : List Int)[(0 : Nat)]? = ([0, 0] : List Int)[(0 : Nat)]? :=
  ⟨by decide, by decide,
    Slice_partial_axes.1 [0, 0] [1] [1] [0, 1] (by decide) 0 (by decide)⟩

/-- Claim C5: a Slice call whose `starts` and `ends` differ in length fails
at the `assert len(starts) == len(ends)` at the very start of translation,
whatever the other inputs are; the mismatch is never defaulted. -/
theorem Slice_mismatched_starts_ends :
    ∀ (x : Tensor) (starts ends : List Int) (axes steps : Option (List Int)),
      starts.length ≠ ends.length →
      onnx_slice x starts ends axes steps = .error .assertionError := by
  intro x starts ends axes steps h
  rw [onnx_slice.eq_def, if_pos h]

/-- Witness for Claim C5. -/
theorem Slice_mismatched_starts_ends_witness :
    ([(0 : Int)] : List Int).length ≠ ([(2 : Int), 2] : List Int).length ∧
    onnx_slice ⟨[2], [7, 8]⟩ [0] [2, 2] (some [0]) (some [1])
        = .error .assertionError :=
  ⟨by decide,
    Slice_mismatched_starts_ends ⟨[2], [7, 8]⟩ [0] [2, 2]
      (some [0]) (some [1]) (by decide)⟩

/-- Claim C6: preparation of a Mod node always leaves `attrs_dict["fmod"]`
equal to the raw attribute value when declared and to the default 0 when
absent. -/
theorem Mod_prepare_fmod_default :
    ∀ node : OnnxNode,
      lookupAttr (Mod_prepare node).attrs_dict "fmod"
        = some ((lookupAttr node.attrs "fmod").getD 0) := by
  intro node
  show lookupAttr
    (setAttr (update_node_attrs_dict node Mod_statics).attrs_dict "fmod"
      ((lookupAttr node.attrs "fmod").getD 0)) "fmod" = _
  exact lookup_setAttr _ _ _

/-- The number of multi-indices of a shape is the product of its
dimensions. -/
theorem length_allIdx (s : List Nat) : (allIdx s).length = s.prod := by
  induction s with
  | nil => rfl
  | cons d ds ih =>
      rw [allIdx, List.length_flatten, List.map_map]
      have hc : (List.length ∘ fun i : Nat => (allIdx ds).map (i :: ·))
          = fun _ : Nat => ds.prod := by
        funext i
        simp [ih]
      rw [hc, List.map_const', List.sum_replicate, smul_eq_mul,
        List.length_range, List.prod_cons]

/-- Claim C7: for every pair of operands, when the input shapes broadcast
the Mod translation returns a tensor whose shape is exactly the broadcast
shape (with data of matching size), and when they do not broadcast it
fails with the propagated host error. -/
theorem Mod_broadcast_shape :
    ∀ (fm : Int) (a b : Tensor),
      (∀ s, broadcastShapes a.shape b.shape = some s →
        ∃ t, onnx_mod fm a b = .ok t ∧ t.shape = s ∧
          t.data.length = s.prod) ∧
      (broadcastShapes a.shape b.shape = none →
        ∃ e, onnx_mod fm a b = .error e) := by
  intro fm a b
  constructor
  · intro s hs
    by_cases hf : fm = 0 <;>
      simp only [onnx_mod, hf, if_pos, if_neg, if_true, if_false,
        reduceIte, broadcastBinop, hs] <;>
      exact ⟨_, rfl, rfl, by simp [length_allIdx]⟩
  · intro hn
    by_cases hf : fm = 0 <;>
      simp only [onnx_mod, hf, if_pos, if_neg, if_true, if_false,
        reduceIte, broadcastBinop, hn] <;>
      exact ⟨_, rfl⟩

/-- Witness for Claim C7 at shapes `[2,1]` and `[3]`. -/
theorem Mod_broadcast_shape_witness :
    broadcastShapes [2, 1] [3] = some [2, 3] ∧
    ∃ t, onnx_mod 0 ⟨[2, 1], [7, -7]⟩ ⟨[3], [3, 3, 3]⟩ = .ok t ∧
      t.shape = [2, 3] ∧ t.data.length = ([2, 3] : List Nat).prod :=
  ⟨by decide,
    (Mod_broadcast_shape 0 ⟨[2, 1], [7, -7]⟩ ⟨[3], [3, 3, 3]⟩).1
      [2, 3] (by decide)⟩

/-- Claim C8: all four Slice version methods return the translation
function `onnx_slice` and both Mod version methods return `onnx_mod`, for
every node and input sequence. -/
theorem version_methods_share_translation :
    ∀ (node : OnnxNode) (inputs : List Tensor),
      (Mod_version_10 node inputs).2 = onnx_mod ∧
      (Mod_version_13 node inputs).2 = onnx_mod ∧
      (Slice_version_1 node inputs).2 = onnx_slice ∧
      (Slice_version_10 node inputs).2 = onnx_slice ∧
      (Slice_version_11 node inputs).2 = onnx_slice ∧
      (Slice_version_13 node inputs).2 = onnx_slice :=
  fun _ _ => ⟨rfl, rfl, rfl, rfl, rfl, rfl⟩

/-- Claim C9: preparation is idempotent for both operators — re-running it
on an already-prepared node (same raw attributes) yields the same node,
attrs_dict included. -/
theorem prepare_idempotent :
    ∀ node : OnnxNode,
      Mod_prepare (Mod_prepare node) = Mod_prepare node ∧
      Slice_prepare (Slice_prepare node) = Slice_prepare node := by
  intro node
  constructor
  · show Mod_prepare (Mod_prepare node) = Mod_prepare node
    unfold Mod_prepare update_node_attrs_dict Mod_statics
    cases hv : List.lookup "fmod" node.attrs <;>
      simp [hv, lookupAttr, setAttr_setAttr]
  · rfl

/-- Claim C10: preparation never inspects the concrete input operands —
each version method gives identical results for any two input sequences. -/
theorem prepare_ignores_inputs :
    ∀ (node : OnnxNode) (inputs1 inputs2 : List Tensor),
      Mod_version_10 node inputs1 = Mod_version_10 node inputs2 ∧
      Mod_version_13 node inputs1 = Mod_version_13 node inputs2 ∧
      Slice_version_1 node inputs1 = Slice_version_1 node inputs2 ∧
      Slice_version_10 node inputs1 = Slice_version_10 node inputs2 ∧
      Slice_version_11 node inputs1 = Slice_version_11 node inputs2 ∧
      Slice_version_13 node inputs1 = Slice_version_13 node inputs2 :=
  fun _ _ _ => ⟨rfl, rfl, rfl, rfl, rfl, rfl⟩
